import Mathlib

/-!
Shallow embedding of the metrics sampling and remediation core of
`src/version1/app.py` (InsightOs), together with theorems settling the
spec claims about it.

Conventions of the embedding:
* Python floats carrying resource percentages and megabyte counts are
  modelled as rationals (`ℚ`).
* The process table iteration (`psutil.process_iter`) yields entries that
  may raise `NoSuchProcess` or `AccessDenied` while being read; an entry
  is modelled as `Except SourceError ProcessRecord`.
* The Python slice `l[-30:]` is `List.rtake l 30`.
* `list.sort(key=k, reverse=True)` is the stable merge sort with the
  comparison "key of the left argument is lexicographically ≥ key of the
  right argument"; CPython's sort is stable and `reverse=True` reverses
  each comparison while keeping equal elements in input order, which is
  exactly that merge sort.
-/

/-- A row of the process table as read in `show_top_processes`,
`show_gaming_stats` and `boost_performance`: pid, name, resident memory
in MB (`rss / 1024 / 1024`), and cpu percent. -/
structure ProcessRecord where
  pid : Nat
  name : String
  memoryMB : ℚ
  cpuPercent : ℚ
deriving DecidableEq

/-- Failures a single process-table read can raise
(`psutil.NoSuchProcess`, `psutil.AccessDenied`); both are caught by the
`except` clauses in the source and make the loop `continue`. -/
inductive SourceError where
  | noSuchProcess
  | accessDenied
deriving DecidableEq

/-- The literal name exclusion list of `boost_performance`
(line 208 of `app.py`). -/
def exclusion_list : List String := ["explorer.exe", "python.exe", "your_game.exe"]

/-- The candidate test of `boost_performance` (lines 207-208):
cpu percent strictly below 5, memory strictly below 50 MB, and the name
not in the literal exclusion list. -/
def isBoostCandidate (p : ProcessRecord) : Bool :=
  decide (p.cpuPercent < 5) && decide (p.memoryMB < 50) && !(exclusion_list.contains p.name)

/-- Remediation candidate selection: the processes surviving the
`boost_performance` candidate test, in table order. -/
def selectCandidates (ps : List ProcessRecord) : List ProcessRecord :=
  ps.filter isBoostCandidate

/-- The process-table fetch loop shared by `show_top_processes`
(lines 264-275) and `show_gaming_stats` (lines 184-196): each entry is
read inside `try`; `NoSuchProcess` and `AccessDenied` make the loop
`continue`, every successfully read record is appended. -/
def fetchProcesses : List (Except SourceError ProcessRecord) → List ProcessRecord
  | [] => []
  | Except.ok r :: rest => r :: fetchProcesses rest
  | Except.error _ :: rest => fetchProcesses rest

/-- The `boost_performance` loop (lines 203-212).  Each entry either
fails to read (`Except.error`), or yields a record together with whether
the `terminate()` call on it would succeed.  Reading failures and
termination failures are both caught by the `except` clause and skipped;
a name is appended to `killed` only after a successful `terminate()`. -/
def boost_performance : List (Except SourceError (ProcessRecord × Bool)) → List String
  | [] => []
  | Except.error _ :: rest => boost_performance rest
  | Except.ok (p, termOk) :: rest =>
    if isBoostCandidate p then
      if termOk then p.name :: boost_performance rest
      else boost_performance rest
    else boost_performance rest

/-- Membership characterization of the fetch loop: it returns exactly the
successfully read records, in order. -/
theorem fetchProcesses_eq_filterMap (entries : List (Except SourceError ProcessRecord)) :
    fetchProcesses entries = entries.filterMap Except.toOption := by
  induction entries with
  | nil => rfl
  | cons e rest ih =>
    cases e with
    | ok r => simp [fetchProcesses, List.filterMap_cons, Except.toOption, ih]
    | error err => simp [fetchProcesses, List.filterMap_cons, Except.toOption, ih]

/-- The state mutated by `update_metrics`: the three rolling metric
windows initialized to `[]` in `__init__` (lines 126-128). -/
structure MetricsState where
  cpu_usage : List ℚ
  ram_usage : List ℚ
  gpu_usage : List ℚ
deriving DecidableEq

/-- The window state right after `__init__`. -/
def initState : MetricsState := ⟨[], [], []⟩

/-- What the adapters report on one timer tick: the cpu percent, the
virtual-memory percent, and the loads (0..1 scale) of the detected
accelerators; `GPUtil.getGPUs()` returning `[]` means no device. -/
structure TickInput where
  cpu : ℚ
  ram : ℚ
  gpus : List ℚ
deriving DecidableEq

/-- The accelerator-load sample appended on a tick (lines 294-298):
`gpus[0].load * 100` when a device is present, else `0`. -/
def gpuSample (t : TickInput) : ℚ :=
  match t.gpus with
  | [] => 0
  | g :: _ => g * 100

/-- One channel update of `update_metrics`: append the sample, then keep
the slice `[-30:]`. -/
def windowAppend (w : List ℚ) (x : ℚ) : List ℚ :=
  (w ++ [x]).rtake 30

/-- The state effect of `update_metrics` (lines 287-299) on the three
windows (the plotting calls mutate no window). -/
def update_metrics (s : MetricsState) (t : TickInput) : MetricsState :=
  { cpu_usage := windowAppend s.cpu_usage t.cpu
    ram_usage := windowAppend s.ram_usage t.ram
    gpu_usage := windowAppend s.gpu_usage (gpuSample t) }

/-- Run a sequence of ticks. -/
def runTicks (s : MetricsState) (ts : List TickInput) : MetricsState :=
  ts.foldl update_metrics s

theorem length_rtake (l : List α) (n : Nat) : (l.rtake n).length = min n l.length := by
  simp [List.rtake]
  omega

theorem rtake_of_length_le {l : List α} {n : Nat} (h : l.length ≤ n) : l.rtake n = l := by
  simp [List.rtake, Nat.sub_eq_zero_of_le h]

theorem take_append_take (n : Nat) (c d : List α) :
    (c ++ d.take n).take n = (c ++ d).take n := by
  rw [List.take_append_eq_append_take, List.take_append_eq_append_take, List.take_take,
    Nat.min_eq_left (Nat.sub_le n c.length)]

theorem rtake_append_rtake (n : Nat) (a b : List α) :
    ((a.rtake n) ++ b).rtake n = (a ++ b).rtake n := by
  simp only [List.rtake_eq_reverse_take_reverse, List.reverse_append, List.reverse_reverse]
  rw [take_append_take]

theorem length_windowAppend (w : List ℚ) (x : ℚ) :
    (windowAppend w x).length = min 30 (w.length + 1) := by
  simp [windowAppend, length_rtake]
  omega

theorem foldl_windowAppend (samples : List ℚ) (w : List ℚ) (hw : w.length ≤ 30) :
    samples.foldl windowAppend w = (w ++ samples).rtake 30 := by
  induction samples generalizing w with
  | nil => simp [rtake_of_length_le hw]
  | cons x xs ih =>
    have h1 : (windowAppend w x).length ≤ 30 := by
      rw [length_windowAppend]; omega
    calc (x :: xs).foldl windowAppend w = xs.foldl windowAppend (windowAppend w x) := rfl
      _ = ((windowAppend w x) ++ xs).rtake 30 := ih _ h1
      _ = ((w ++ [x]) ++ xs).rtake 30 := rtake_append_rtake 30 (w ++ [x]) xs
      _ = (w ++ x :: xs).rtake 30 := by simp

theorem runTicks_cpu (ts : List TickInput) (s : MetricsState) :
    (runTicks s ts).cpu_usage = (ts.map TickInput.cpu).foldl windowAppend s.cpu_usage := by
  induction ts generalizing s with
  | nil => rfl
  | cons t ts ih => simp [runTicks, List.foldl_cons, List.map_cons] at ih ⊢; exact ih _

theorem runTicks_ram (ts : List TickInput) (s : MetricsState) :
    (runTicks s ts).ram_usage = (ts.map TickInput.ram).foldl windowAppend s.ram_usage := by
  induction ts generalizing s with
  | nil => rfl
  | cons t ts ih => simp [runTicks, List.foldl_cons, List.map_cons] at ih ⊢; exact ih _

theorem runTicks_gpu (ts : List TickInput) (s : MetricsState) :
    (runTicks s ts).gpu_usage = (ts.map gpuSample).foldl windowAppend s.gpu_usage := by
  induction ts generalizing s with
  | nil => rfl
  | cons t ts ih => simp [runTicks, List.foldl_cons, List.map_cons] at ih ⊢; exact ih _

theorem runTicks_init_cpu (ts : List TickInput) :
    (runTicks initState ts).cpu_usage = (ts.map TickInput.cpu).rtake 30 := by
  rw [runTicks_cpu, foldl_windowAppend _ _ (by simp [initState])]
  simp [initState]

theorem runTicks_init_ram (ts : List TickInput) :
    (runTicks initState ts).ram_usage = (ts.map TickInput.ram).rtake 30 := by
  rw [runTicks_ram, foldl_windowAppend _ _ (by simp [initState])]
  simp [initState]

theorem runTicks_init_gpu (ts : List TickInput) :
    (runTicks initState ts).gpu_usage = (ts.map gpuSample).rtake 30 := by
  rw [runTicks_gpu, foldl_windowAppend _ _ (by simp [initState])]
  simp [initState]

/-- Lexicographic comparison on pairs, the order Python uses on the
2-tuples handed to `sort(key=...)`. -/
def tupleLe (a b : ℚ × ℚ) : Bool :=
  decide (a.1 < b.1 ∨ (a.1 = b.1 ∧ a.2 ≤ b.2))

/-- The sort key of `show_top_processes` (line 278): `(x[3], x[2])`,
i.e. (cpu percent, memory MB). -/
def displayKey (p : ProcessRecord) : ℚ × ℚ :=
  (p.cpuPercent, p.memoryMB)

/-- The sort key of `show_gaming_stats` (line 197): `(x[2], x[3])`,
i.e. (memory MB, cpu percent). -/
def gamingKey (p : ProcessRecord) : ℚ × ℚ :=
  (p.memoryMB, p.cpuPercent)

/-- Python's `sort(key=k, reverse=True)` orders `a` before `b` when the
key of `a` is lexicographically ≥ the key of `b`; equal keys are kept in
input order by stability. -/
def descBy (k : ProcessRecord → ℚ × ℚ) (a b : ProcessRecord) : Bool :=
  tupleLe (k b) (k a)

/-- The ranked view of `show_top_processes` (lines 278-282):
stable-sort descending by (cpu, mem), keep the first 10. -/
def rankDisplay (ps : List ProcessRecord) : List ProcessRecord :=
  (ps.mergeSort (descBy displayKey)).take 10

/-- The ranked view of `show_gaming_stats` (lines 197-198):
stable-sort descending by (mem, cpu), keep the first 5. -/
def rankGaming (ps : List ProcessRecord) : List ProcessRecord :=
  (ps.mergeSort (descBy gamingKey)).take 5

/-- The process list displayed by the Top Processes tab: fetch the
table, then rank. -/
def show_top_processes (entries : List (Except SourceError ProcessRecord)) :
    List ProcessRecord :=
  rankDisplay (fetchProcesses entries)

/-- The resource-heavy process list of the Gaming Mode tab. -/
def show_gaming_stats (entries : List (Except SourceError ProcessRecord)) :
    List ProcessRecord :=
  rankGaming (fetchProcesses entries)

theorem tupleLe_iff (a b : ℚ × ℚ) :
    tupleLe a b = true ↔ a.1 < b.1 ∨ (a.1 = b.1 ∧ a.2 ≤ b.2) := by
  simp [tupleLe]

theorem tupleLe_total (a b : ℚ × ℚ) : tupleLe a b || tupleLe b a := by
  simp only [tupleLe, Bool.or_eq_true, decide_eq_true_eq]
  rcases lt_trichotomy a.1 b.1 with h | h | h
  · exact Or.inl (Or.inl h)
  · rcases le_total a.2 b.2 with h2 | h2
    · exact Or.inl (Or.inr ⟨h, h2⟩)
    · exact Or.inr (Or.inr ⟨h.symm, h2⟩)
  · exact Or.inr (Or.inl h)

theorem tupleLe_trans {a b c : ℚ × ℚ} (hab : tupleLe a b) (hbc : tupleLe b c) :
    tupleLe a c := by
  simp only [tupleLe, decide_eq_true_eq] at hab hbc ⊢
  rcases hab with h1 | ⟨h1, h1'⟩ <;> rcases hbc with h2 | ⟨h2, h2'⟩
  · exact Or.inl (h1.trans h2)
  · exact Or.inl (h2 ▸ h1)
  · exact Or.inl (h1 ▸ h2)
  · exact Or.inr ⟨h1.trans h2, h1'.trans h2'⟩

theorem descBy_trans (k : ProcessRecord → ℚ × ℚ) (a b c : ProcessRecord)
    (hab : descBy k a b) (hbc : descBy k b c) : descBy k a c :=
  tupleLe_trans hbc hab

theorem descBy_total (k : ProcessRecord → ℚ × ℚ) (a b : ProcessRecord) :
    descBy k a b || descBy k b a := by
  simpa [descBy, Bool.or_comm] using tupleLe_total (k a) (k b)

/-- Common shape of both rankers: the displayed list is the `n`-prefix of
a permutation of the input that is pairwise descending in the key. -/
theorem take_mergeSort_spec (k : ProcessRecord → ℚ × ℚ) (n : Nat)
    (ps : List ProcessRecord) :
    ∃ rest : List ProcessRecord,
      ((ps.mergeSort (descBy k)).take n ++ rest).Perm ps ∧
      ((ps.mergeSort (descBy k)).take n ++ rest).Pairwise (fun a b => descBy k a b = true) ∧
      ((ps.mergeSort (descBy k)).take n).length = min n ps.length := by
  refine ⟨(ps.mergeSort (descBy k)).drop n, ?_, ?_, ?_⟩
  · rw [List.take_append_drop]
    exact List.mergeSort_perm ps (descBy k)
  · rw [List.take_append_drop]
    exact List.sorted_mergeSort (descBy_trans k) (descBy_total k) ps
  · simp [List.length_take, List.length_mergeSort]

theorem getLast?_windowAppend (w : List ℚ) (x : ℚ) :
    (windowAppend w x).getLast? = some x := by
  rw [windowAppend, show (30 : Nat) = 29 + 1 from rfl, List.rtake_concat_succ]
  exact List.getLast?_concat _

/-- C1: a process is a boost candidate iff its cpu percent is below 5,
its memory is below 50 MB, and its name is not one of the three excluded
names; on the spec's example table exactly the pid-1 process is
selected. -/
theorem selectCandidates_spec :
    (∀ (ps : List ProcessRecord) (p : ProcessRecord),
      p ∈ selectCandidates ps ↔
        p ∈ ps ∧ p.cpuPercent < 5 ∧ p.memoryMB < 50 ∧ p.name ∉ exclusion_list)
    ∧ selectCandidates [⟨1, "a", 30, 2⟩, ⟨2, "b", 20, 10⟩, ⟨3, "explorer.exe", 10, 1⟩]
        = [⟨1, "a", 30, 2⟩] := by
  constructor
  · intro ps p
    simp [selectCandidates, List.mem_filter, isBoostCandidate, and_assoc]
  · decide

/-- C2: for every tick sequence from the initial state, no window grows
past 30 samples, and after at least 30 ticks each window holds exactly
30 samples. -/
theorem window_length_invariant (ts : List TickInput) :
    (runTicks initState ts).cpu_usage.length ≤ 30
    ∧ (runTicks initState ts).ram_usage.length ≤ 30
    ∧ (runTicks initState ts).gpu_usage.length ≤ 30
    ∧ (30 ≤ ts.length →
        (runTicks initState ts).cpu_usage.length = 30
        ∧ (runTicks initState ts).ram_usage.length = 30
        ∧ (runTicks initState ts).gpu_usage.length = 30) := by
  have hc : (runTicks initState ts).cpu_usage.length = min 30 ts.length := by
    rw [runTicks_init_cpu, length_rtake, List.length_map]
  have hr : (runTicks initState ts).ram_usage.length = min 30 ts.length := by
    rw [runTicks_init_ram, length_rtake, List.length_map]
  have hg : (runTicks initState ts).gpu_usage.length = min 30 ts.length := by
    rw [runTicks_init_gpu, length_rtake, List.length_map]
  refine ⟨by omega, by omega, by omega, fun h => ⟨by omega, by omega, by omega⟩⟩

/-- Witness for C2 at a concrete 31-tick trace. -/
theorem window_length_invariant_witness :
    30 ≤ (List.replicate 31 (⟨0, 0, []⟩ : TickInput)).length
    ∧ (runTicks initState (List.replicate 31 (⟨0, 0, []⟩ : TickInput))).cpu_usage.length = 30 :=
  ⟨by simp, ((window_length_invariant (List.replicate 31 ⟨0, 0, []⟩)).2.2.2 (by simp)).1⟩

/-- C3: appending more than 30 samples to an initially empty window
leaves exactly the last 30 samples, in chronological order; the same
holds for the cpu channel of a tick trace feeding those samples. -/
theorem window_fifo (samples : List ℚ) (h : 30 < samples.length) :
    samples.foldl windowAppend [] = samples.drop (samples.length - 30)
    ∧ (runTicks initState (samples.map fun c => ⟨c, 0, []⟩)).cpu_usage
        = samples.drop (samples.length - 30)
    ∧ (samples.drop (samples.length - 30)).length = 30 := by
  have h1 : samples.foldl windowAppend [] = samples.rtake 30 := by
    rw [foldl_windowAppend samples [] (by simp)]
    simp
  have h2 : samples.rtake 30 = samples.drop (samples.length - 30) := rfl
  refine ⟨h1.trans h2, ?_, ?_⟩
  · have h3 : ∀ l : List ℚ, ((l.map fun c => (⟨c, 0, []⟩ : TickInput)).map TickInput.cpu) = l := by
      intro l
      induction l with
      | nil => rfl
      | cons x xs ih => simp only [List.map_cons, ih]
    rw [runTicks_init_cpu, h3, h2]
  · rw [List.length_drop]
    omega

/-- Witness for C3 at a concrete 31-sample trace. -/
theorem window_fifo_witness :
    30 < (List.replicate 31 (0 : ℚ)).length
    ∧ (List.replicate 31 (0 : ℚ)).foldl windowAppend []
        = (List.replicate 31 (0 : ℚ)).drop ((List.replicate 31 (0 : ℚ)).length - 30) :=
  ⟨by simp, (window_fifo (List.replicate 31 0) (by simp)).1⟩

/-- C7: on a tick where the accelerator adapter reports no device, the
cpu and ram windows are still appended to and truncated as usual, and
the accelerator-load sample recorded for the tick is 0; no error is
propagated. -/
theorem update_metrics_no_accelerator (s : MetricsState) (c r : ℚ) :
    (update_metrics s ⟨c, r, []⟩).cpu_usage = (s.cpu_usage ++ [c]).rtake 30
    ∧ (update_metrics s ⟨c, r, []⟩).ram_usage = (s.ram_usage ++ [r]).rtake 30
    ∧ (update_metrics s ⟨c, r, []⟩).gpu_usage = (s.gpu_usage ++ [(0 : ℚ)]).rtake 30
    ∧ (update_metrics s ⟨c, r, []⟩).cpu_usage.getLast? = some c
    ∧ (update_metrics s ⟨c, r, []⟩).ram_usage.getLast? = some r
    ∧ (update_metrics s ⟨c, r, []⟩).gpu_usage.getLast? = some 0
    ∧ (update_metrics s ⟨c, r, []⟩).cpu_usage.length = min 30 (s.cpu_usage.length + 1)
    ∧ (update_metrics s ⟨c, r, []⟩).ram_usage.length = min 30 (s.ram_usage.length + 1)
    ∧ (update_metrics s ⟨c, r, []⟩).gpu_usage.length = min 30 (s.gpu_usage.length + 1) :=
  ⟨rfl, rfl, rfl,
    getLast?_windowAppend _ _, getLast?_windowAppend _ _, getLast?_windowAppend _ _,
    length_windowAppend _ _, length_windowAppend _ _, length_windowAppend _ _⟩

/-- C10: after any tick trace from the initial state the three windows
have the same length, namely `min (number of ticks) 30`; each single
tick appends exactly one sample per channel and truncates to the last
30. -/
theorem windows_equal_length (ts : List TickInput) :
    (runTicks initState ts).cpu_usage.length = min ts.length 30
    ∧ (runTicks initState ts).ram_usage.length = min ts.length 30
    ∧ (runTicks initState ts).gpu_usage.length = min ts.length 30
    ∧ (∀ (s : MetricsState) (t : TickInput),
        (update_metrics s t).cpu_usage = (s.cpu_usage ++ [t.cpu]).rtake 30
        ∧ (update_metrics s t).ram_usage = (s.ram_usage ++ [t.ram]).rtake 30
        ∧ (update_metrics s t).gpu_usage = (s.gpu_usage ++ [gpuSample t]).rtake 30) := by
  refine ⟨?_, ?_, ?_, fun s t => ⟨rfl, rfl, rfl⟩⟩
  · rw [runTicks_init_cpu, length_rtake, List.length_map, Nat.min_comm]
  · rw [runTicks_init_ram, length_rtake, List.length_map, Nat.min_comm]
  · rw [runTicks_init_gpu, length_rtake, List.length_map, Nat.min_comm]

/-- C5: the Top Processes view is the 10-record head of a permutation of
the input table that is sorted descending by cpu percent first and
memory second (ties on cpu broken by memory). -/
theorem rankDisplay_spec (ps : List ProcessRecord) :
    ∃ rest : List ProcessRecord,
      (rankDisplay ps ++ rest).Perm ps
      ∧ (rankDisplay ps ++ rest).Pairwise
          (fun a b => b.cpuPercent < a.cpuPercent
            ∨ (b.cpuPercent = a.cpuPercent ∧ b.memoryMB ≤ a.memoryMB))
      ∧ (rankDisplay ps).length = min 10 ps.length := by
  obtain ⟨rest, hperm, hpair, hlen⟩ := take_mergeSort_spec displayKey 10 ps
  refine ⟨rest, hperm, hpair.imp ?_, hlen⟩
  intro a b hab
  simpa [descBy, tupleLe, displayKey] using hab

/-- C6: the Gaming Mode resource-heavy view is the 5-record head of a
permutation of the input table that is sorted descending by memory MB
first and cpu percent second. -/
theorem rankGaming_spec (ps : List ProcessRecord) :
    ∃ rest : List ProcessRecord,
      (rankGaming ps ++ rest).Perm ps
      ∧ (rankGaming ps ++ rest).Pairwise
          (fun a b => b.memoryMB < a.memoryMB
            ∨ (b.memoryMB = a.memoryMB ∧ b.cpuPercent ≤ a.cpuPercent))
      ∧ (rankGaming ps).length = min 5 ps.length := by
  obtain ⟨rest, hperm, hpair, hlen⟩ := take_mergeSort_spec gamingKey 5 ps
  refine ⟨rest, hperm, hpair.imp ?_, hlen⟩
  intro a b hab
  simpa [descBy, tupleLe, gamingKey] using hab

/-- Counterexample to C4: two records with identical cpu and memory but
decreasing pids stay in input order, so ties are not broken by pid
ascending. -/
theorem rank_tiebreak_counterexample :
    displayKey ⟨2, "a", 10, 10⟩ = displayKey ⟨1, "b", 10, 10⟩
    ∧ (⟨1, "b", 10, 10⟩ : ProcessRecord).pid < (⟨2, "a", 10, 10⟩ : ProcessRecord).pid
    ∧ rankDisplay [⟨2, "a", 10, 10⟩, ⟨1, "b", 10, 10⟩]
        = [⟨2, "a", 10, 10⟩, ⟨1, "b", 10, 10⟩]
    ∧ rankDisplay [⟨2, "a", 10, 10⟩, ⟨1, "b", 10, 10⟩]
        ≠ [⟨1, "b", 10, 10⟩, ⟨2, "a", 10, 10⟩] := by
  have hsorted : List.Pairwise (fun a b => descBy displayKey a b = true)
      [(⟨2, "a", 10, 10⟩ : ProcessRecord), ⟨1, "b", 10, 10⟩] := by decide
  have h : rankDisplay [⟨2, "a", 10, 10⟩, ⟨1, "b", 10, 10⟩]
      = [⟨2, "a", 10, 10⟩, ⟨1, "b", 10, 10⟩] := by
    rw [rankDisplay, List.mergeSort_of_sorted hsorted]
    rfl
  refine ⟨by decide, by decide, h, ?_⟩
  rw [h]
  decide

/-- C4 (amended): the rankers are pure functions, and ties on both
comparison keys keep the records' relative input order (the sort is
stable); this holds for both ranking policies. -/
theorem rank_tiebreak_stable (ps : List ProcessRecord) (a b : ProcessRecord)
    (hcpu : a.cpuPercent = b.cpuPercent) (hmem : a.memoryMB = b.memoryMB)
    (hab : [a, b].Sublist ps) :
    ([a, b].Sublist (ps.mergeSort (descBy displayKey)))
    ∧ ([a, b].Sublist (ps.mergeSort (descBy gamingKey))) := by
  constructor
  · refine List.pair_sublist_mergeSort (descBy_trans displayKey) (descBy_total displayKey) ?_ hab
    simp [descBy, tupleLe, displayKey, hcpu, hmem]
  · refine List.pair_sublist_mergeSort (descBy_trans gamingKey) (descBy_total gamingKey) ?_ hab
    simp [descBy, tupleLe, gamingKey, hcpu, hmem]

/-- Witness for the amended C4 at a concrete tied pair. -/
theorem rank_tiebreak_stable_witness :
    (⟨2, "a", 10, 10⟩ : ProcessRecord).cpuPercent
      = (⟨1, "b", 10, 10⟩ : ProcessRecord).cpuPercent
    ∧ (⟨2, "a", 10, 10⟩ : ProcessRecord).memoryMB
      = (⟨1, "b", 10, 10⟩ : ProcessRecord).memoryMB
    ∧ ([(⟨2, "a", 10, 10⟩ : ProcessRecord), ⟨1, "b", 10, 10⟩].Sublist
        ([(⟨2, "a", 10, 10⟩ : ProcessRecord), ⟨1, "b", 10, 10⟩].mergeSort
          (descBy displayKey))) :=
  ⟨rfl, rfl,
    (rank_tiebreak_stable [⟨2, "a", 10, 10⟩, ⟨1, "b", 10, 10⟩] ⟨2, "a", 10, 10⟩
      ⟨1, "b", 10, 10⟩ rfl rfl (List.Sublist.refl _)).1⟩

/-- Counterexample to C8: inputs with different numbers of failing
entries produce identical fetch results, so the fetch returns no count
of the skipped entries. -/
theorem fetch_no_skip_count_counterexample :
    fetchProcesses [Except.error SourceError.accessDenied, Except.ok ⟨7, "svc", 100, 50⟩]
      = fetchProcesses [Except.ok ⟨7, "svc", 100, 50⟩]
    ∧ fetchProcesses [Except.error SourceError.accessDenied, Except.ok ⟨7, "svc", 100, 50⟩]
      = [⟨7, "svc", 100, 50⟩] :=
  ⟨rfl, rfl⟩

/-- C8 (amended): the process-table fetch skips each failing entry and
continues, returning exactly the successfully read records in order; no
skip count is part of the result. -/
theorem fetchProcesses_skips_failures :
    (∀ entries, fetchProcesses entries = entries.filterMap Except.toOption)
    ∧ (∀ (e : SourceError) rest,
        fetchProcesses (Except.error e :: rest) = fetchProcesses rest)
    ∧ (∀ (r : ProcessRecord) rest,
        fetchProcesses (Except.ok r :: rest) = r :: fetchProcesses rest)
    ∧ (∀ entries, (fetchProcesses entries).length ≤ entries.length) := by
  refine ⟨fetchProcesses_eq_filterMap, fun e rest => rfl, fun r rest => rfl, ?_⟩
  intro entries
  rw [fetchProcesses_eq_filterMap]
  exact List.length_filterMap_le _ _

/-- Counterexample to C9: a candidate whose termination fails leaves no
trace in the result, which is identical to the result on an empty
table; no failures list exists. -/
theorem boost_failure_not_recorded_counterexample :
    isBoostCandidate ⟨42, "idle_task", 10, 1⟩ = true
    ∧ boost_performance [Except.ok (⟨42, "idle_task", 10, 1⟩, false)] = boost_performance []
    ∧ boost_performance [Except.ok (⟨42, "idle_task", 10, 1⟩, false)] = [] := by
  refine ⟨by decide, by decide, by decide⟩

/-- C9 (amended): `boost_performance` processes entries independently: a
read failure or a failed termination is silently skipped and does not
abort the remaining entries; only successfully terminated candidate
names are recorded. -/
theorem boost_performance_audit :
    (∀ pre post,
        boost_performance (pre ++ post) = boost_performance pre ++ boost_performance post)
    ∧ (∀ (e : SourceError) rest,
        boost_performance (Except.error e :: rest) = boost_performance rest)
    ∧ (∀ (p : ProcessRecord) rest, isBoostCandidate p = true →
        boost_performance (Except.ok (p, false) :: rest) = boost_performance rest)
    ∧ (∀ (p : ProcessRecord) rest, isBoostCandidate p = true →
        boost_performance (Except.ok (p, true) :: rest)
          = p.name :: boost_performance rest) := by
  refine ⟨?_, fun e rest => rfl, ?_, ?_⟩
  · intro pre post
    induction pre with
    | nil => rfl
    | cons e rest ih =>
      cases e with
      | error err => simpa [boost_performance] using ih
      | ok pr =>
        obtain ⟨p, termOk⟩ := pr
        by_cases hc : isBoostCandidate p <;> cases termOk <;>
          simp [boost_performance, hc, ih]
  · intro p rest h
    simp [boost_performance, h]
  · intro p rest h
    simp [boost_performance, h]

/-- Witness for the amended C9 at a concrete candidate whose
termination succeeds. -/
theorem boost_performance_audit_witness :
    isBoostCandidate ⟨43, "helper_task", 20, 2⟩ = true
    ∧ boost_performance [Except.ok (⟨43, "helper_task", 20, 2⟩, true)]
        = "helper_task" :: boost_performance [] :=
  ⟨by decide, boost_performance_audit.2.2.2 ⟨43, "helper_task", 20, 2⟩ [] (by decide)⟩
